import Mathlib

/-!
Verification development for the news-diet feed ingestion and enrichment
pipeline.  The Python sources (`app/services/ai_processor.py`,
`app/services/feeder.py`, `app/services/scheduler.py`) are shallowly embedded:
strings are lists of characters, machine I/O outcomes (HTTP fetches, backend
calls, store operations) are explicit inputs, and every operation is a total
Lean function mirroring the source's control flow.
-/

/-! ### Python-style string primitives (over `List Char`) -/

/-- ASCII whitespace, as stripped by Python's `str.strip()`. -/
def pyIsSpace (c : Char) : Bool :=
  c == ' ' || c == '\t' || c == '\n' || c == '\r' || c == '\x0b' || c == '\x0c'

/-- Bracket/quote punctuation stripped by `strip("[]\"'")` in the tag parser. -/
def isBracketQuote (c : Char) : Bool :=
  c == '[' || c == ']' || c == '"' || c == '\''

/-- Strip characters satisfying `p` from both ends (Python `str.strip(chars)`). -/
def pyStripP (p : Char → Bool) (l : List Char) : List Char :=
  (((l.dropWhile p).reverse).dropWhile p).reverse

/-- Python `str.strip()` (whitespace from both ends). -/
def pyStrip (l : List Char) : List Char :=
  pyStripP pyIsSpace l

/-- Python `str.split(sep)` for a one-character separator. -/
def splitCh (c : Char) : List Char → List (List Char)
  | [] => [[]]
  | x :: xs =>
    match splitCh c xs with
    | [] => [[x]]
    | y :: ys => if x = c then [] :: y :: ys else (x :: y) :: ys

/-- Python `sep.join(xs)` for a list separator. -/
def joinSep (sep : List Char) : List (List Char) → List Char
  | [] => []
  | [x] => x
  | x :: xs => x ++ sep ++ joinSep sep xs

/-- Python `str.split(sep, 1)[1]`: everything after the first occurrence of
`c` (empty when `c` is absent, but callers only use it when `c` occurs). -/
def afterFirst (c : Char) (l : List Char) : List Char :=
  match splitCh c l with
  | [] => []
  | _ :: rest => joinSep [c] rest

/-- Python `str.lower()` (ASCII). -/
def pyLower (l : List Char) : List Char := l.map Char.toLower

/-- Python `str.upper()` (ASCII). -/
def pyUpper (l : List Char) : List Char := l.map Char.toUpper

/-! ### RelevanceScorer (`ai_processor.py` lines 200-237)

The programmatic scoring block of `AIProcessor.score_relevance`: the score is
computed from the excluded flag, the number of matched tags and the quality
string, exactly as the chain of `if`/`elif` in the source. -/

/-- The scoring block of `score_relevance` (source lines 200-236). -/
def scoreFromTags (isExcluded : Bool) (numTags : Nat) (quality : List Char) : Nat :=
  if isExcluded then 0
  else if numTags = 0 then
    if quality = "high".data then 3 else if quality = "medium".data then 2 else 1
  else if numTags = 1 then
    if quality = "high".data then 6 else if quality = "medium".data then 5 else 4
  else if numTags = 2 then
    if quality = "high".data then 8 else if quality = "medium".data then 7 else 6
  else
    if quality = "high".data then 10 else if quality = "medium".data then 9 else 8

/-- The rule table of spec section 4.2, transcribed row by row from the
spec's words (excluded ⇒ 0; otherwise rows for tag count 0 / 1 / 2 / ≥3 with
columns low / medium / high). -/
def specScoreTable (isExcluded : Bool) (numTags : Nat) (quality : List Char) : Nat :=
  if isExcluded then 0
  else if quality = "low".data then
    if numTags = 0 then 1 else if numTags = 1 then 4 else if numTags = 2 then 6 else 8
  else if quality = "medium".data then
    if numTags = 0 then 2 else if numTags = 1 then 5 else if numTags = 2 then 7 else 9
  else
    if numTags = 0 then 3 else if numTags = 1 then 6 else if numTags = 2 then 8 else 10

/-! ### TextClassifier backend outcomes (`ai_processor.py`)

A call to the generation backend either returns text, fails with a connection
error, a timeout, or some other unexpected exception.  The source's
`except (APIConnectionError, APITimeoutError)` and `except Exception`
branches become cases of this inductive. -/

inductive BackendResult where
  | ok (text : String)
  | connectionError
  | timeoutError
  | otherError
deriving DecidableEq

/-! ### Synopsis post-processing (`ai_processor.py` lines 86-109) -/

def apos : Char := '\''

/-- The `unwanted_prefixes` list from `summarize_article` (source lines 89-95). -/
def unwantedPres : List (List Char) :=
  ["here is a summary".data,
   "here".data ++ [apos] ++ "s a summary".data,
   "this article".data,
   "the article".data,
   "summary:".data]

/-- Preamble removal (source lines 96-101): scan the unwanted phrases in
order; on the first whose lowercase form is a leading match, drop everything
up to the first colon when a colon occurs in the first 50 characters. -/
def stripPreamble (summary : List Char) : List Char :=
  match unwantedPres.find? (fun p => p.isPrefixOf (pyLower summary)) with
  | some _ =>
    if ':' ∈ summary.take 50 then pyStrip (afterFirst ':' summary) else summary
  | none => summary

/-- The `sentences` list of source line 105: non-empty stripped
period-separated segments. -/
def pySentences (summary : List Char) : List (List Char) :=
  ((splitCh '.' summary).map pyStrip).filter (fun t => !t.isEmpty)

/-- Sentence truncation (source lines 105-107): keep at most the first four
non-empty period-separated sentences. -/
def truncate4 (summary : List Char) : List Char :=
  if 4 < (pySentences summary).length then
    (joinSep ['.', ' '] ((pySentences summary).take 4)) ++ ['.']
  else summary

/-- Number of non-empty period-separated sentences, by the source's own
counting (line 105). -/
def sentenceCount (summary : List Char) : Nat :=
  (pySentences summary).length

/-- The post-processing applied to a successful backend response in
`summarize_article` (source lines 86-109): strip, remove preamble, truncate. -/
def summarizePost (raw : List Char) : List Char :=
  truncate4 (stripPreamble (pyStrip raw))

/-- `AIProcessor.summarize_article` as a function of the backend outcome
(source lines 60-116): post-process successful text; map connection/timeout
failures and other errors to the fixed sentinel strings. -/
def summarize_article (r : BackendResult) : String :=
  match r with
  | .ok text => ⟨summarizePost text.data⟩
  | .connectionError => "Summary unavailable - AI service temporarily offline."
  | .timeoutError => "Summary unavailable - AI service temporarily offline."
  | .otherError => "Summary generation failed."

/-! ### Topic extraction parser (`ai_processor.py` lines 175-198) -/

/-- The literal keyword at the head of a tags line. -/
def tagsKw : List Char := ['T', 'a', 'g', 's', ':']

/-- The literal keyword at the head of a quality line. -/
def qualKw : List Char := ['Q', 'u', 'a', 'l', 'i', 't', 'y', ':']

/-- The sentinel values that clear the tag list (source line 187). -/
def noneTokens : List (List Char) :=
  ["none".data, "n/a".data, "na".data, "[]".data, "".data]

/-- The accepted quality values (source line 197). -/
def qualityTokens : List (List Char) :=
  ["low".data, "medium".data, "high".data]

/-- The Python dict `{i.lower(): i for i in interests}` looked up at key `k`:
the last interest whose lowercase form equals `k` wins, and the stored value
is the interest's original capitalization (source lines 192-194). -/
def interestLookup (interests : List (List Char)) (k : List Char) : Option (List Char) :=
  interests.reverse.find? (fun i => pyLower i = k)

/-- Parse the value of a tags line that is neither EXCLUDED nor a none-token
(source lines 190-194): split on commas, strip whitespace then
bracket/quote punctuation, keep tokens whose lowercase form is in the
interest vocabulary (with the vocabulary's capitalization), cap at 3. -/
def parseTagsValue (interests : List (List Char)) (tagsStr : List Char) : List (List Char) :=
  let rawTags := (splitCh ',' tagsStr).map (fun t => pyStripP isBracketQuote (pyStrip t))
  (rawTags.filterMap (fun t => interestLookup interests (pyLower t))).take 3

/-- Parser state: current tag list, quality string, excluded flag
(initialized to `[]`, `"medium"`, `false` at source lines 176-178). -/
structure TagState where
  tags : List (List Char)
  quality : List Char
  excluded : Bool
deriving DecidableEq

def initTagState : TagState := ⟨[], "medium".data, false⟩

/-- Effect of a recognized tags line on the state (source lines 182-194);
`pyStrip (afterFirst ':' l)` is the line's `tags_str`. -/
def applyTags (interests : List (List Char)) (st : TagState) (l : List Char) : TagState :=
  if pyUpper (pyStrip (afterFirst ':' l)) = "EXCLUDED".data then
    { st with excluded := true, tags := [] }
  else if pyLower (pyStrip (afterFirst ':' l)) ∈ noneTokens then { st with tags := [] }
  else { st with tags := parseTagsValue interests (pyStrip (afterFirst ':' l)) }

/-- Effect of a recognized quality line on the state (source lines 195-198);
`pyLower (pyStrip ((splitCh ':' l).getD 1 []))` is the line's `quality_str`. -/
def applyQuality (st : TagState) (l : List Char) : TagState :=
  if pyLower (pyStrip ((splitCh ':' l).getD 1 [])) ∈ qualityTokens then
    { st with quality := pyLower (pyStrip ((splitCh ':' l).getD 1 [])) }
  else st

/-- One iteration of the parsing loop (source lines 180-198): strip the line,
dispatch on a literal `Tags:` or `Quality:` leading match. -/
def lineStep (interests : List (List Char)) (st : TagState) (line : List Char) : TagState :=
  if tagsKw.isPrefixOf (pyStrip line) then applyTags interests st (pyStrip line)
  else if qualKw.isPrefixOf (pyStrip line) then applyQuality st (pyStrip line)
  else st

/-- The full response parser of `score_relevance` (source lines 175-198):
fold the line loop over the newline-split response. -/
def parseTopics (interests : List (List Char)) (resultText : List Char) : TagState :=
  (splitCh '\n' resultText).foldl (lineStep interests) initTagState

/-- `AIProcessor.score_relevance` as a function of the backend outcome and
the configured interests (source lines 118-244): parse tags/quality from a
successful response and apply the programmatic scoring; map connection,
timeout and other failures to the neutral `(5, [])`. -/
def score_relevance (r : BackendResult) (interests : List String) : Nat × List String :=
  match r with
  | .ok text =>
    let st := parseTopics (interests.map String.data) text.data
    (scoreFromTags st.excluded st.tags.length st.quality, st.tags.map String.mk)
  | .connectionError => (5, [])
  | .timeoutError => (5, [])
  | .otherError => (5, [])

/-! ### Feed ingestion (`feeder.py`)

The environment is explicit: the outcome of the raw-content fetch, whether
the preferences load throws, and per entry whether enrichment throws and
whether a concurrent run inserts the same key between the pre-check and the
write.  The article store is the list of stored identity keys (URLs). -/

/-- One parsed feed entry together with its environment-determined fate. -/
structure FeedEntry where
  /-- The entry's `link` field; `none` models a feed entry with no link. -/
  link : Option String
  /-- An exception is thrown while enriching/processing this entry
  (caught by the per-entry handler at source lines 154-156). -/
  procError : Bool
  /-- A concurrent run inserts the same key between pre-check and write,
  so the guarded insert raises `DuplicateKeyError` (source lines 148-152). -/
  race : Bool
deriving DecidableEq

/-- Outcome of `_fetch_feed_content` plus feed parsing: either a list of
entries, or one of the three caught fetch failures (source lines 42-56). -/
inductive FetchOutcome where
  | ok (entries : List FeedEntry)
  | timeout
  | httpError
  | transportError
deriving DecidableEq

/-- `RSSFeeder._fetch_feed_content` (source lines 42-56): all three failure
kinds are caught and collapse to `None`. -/
def fetchFeedContent : FetchOutcome → Option (List FeedEntry)
  | .ok es => some es
  | .timeout => none
  | .httpError => none
  | .transportError => none

/-- `entry.get('link', '')` (source line 99). -/
def entryUrl (e : FeedEntry) : String := e.link.getD ""

/-- Per-feed health metadata (`last_fetched_at`, `error_count`). -/
structure FeedMeta where
  lastFetchedAt : Option Nat
  errorCount : Nat
deriving DecidableEq

/-- The body of the per-entry loop (source lines 96-156), returning the
count contribution, the updated store, and the keys this run inserted:
pre-check skip if the key is stored; skip on a processing exception; on a
duplicate-key race the concurrent writer's key is in the store but this run
inserted nothing; otherwise insert and count. -/
def processEntry (store : List String) (e : FeedEntry) : Nat × List String × List String :=
  let url := entryUrl e
  if url ∈ store then (0, store, [])
  else if e.procError then (0, store, [])
  else if e.race then (0, store ++ [url], [])
  else (1, store ++ [url], [url])

/-- The per-entry loop folded over the entry list in feed order. -/
def processEntries (store : List String) : List FeedEntry → Nat × List String × List String
  | [] => (0, store, [])
  | e :: es =>
    let r := processEntry store e
    let rest := processEntries r.2.1 es
    (r.1 + rest.1, rest.2.1, r.2.2 ++ rest.2.2)

/-- Result of one `fetch_feed` run: returned new-item count, article store
after the run, keys inserted by this run, and the feed's metadata. -/
structure FetchFeedResult where
  newCount : Nat
  store : List String
  inserted : List String
  meta : FeedMeta
deriving DecidableEq

/-- `RSSFeeder.fetch_feed` (source lines 58-181).  A failed content fetch
returns 0 with no store or metadata change (source lines 81-83).  An
exception escaping the body afterwards (e.g. the preferences load) is caught
by the outer handler, which increments the error counter and returns 0
(source lines 172-181).  Otherwise the entry loop runs and, on normal
completion, the last-fetch timestamp is set to now and the error counter
reset to 0 (source lines 158-170). -/
def fetch_feed (o : FetchOutcome) (prefsFail : Bool) (store : List String)
    (meta : FeedMeta) (now : Nat) : FetchFeedResult :=
  match fetchFeedContent o with
  | none => ⟨0, store, [], meta⟩
  | some entries =>
    if prefsFail then ⟨0, store, [], ⟨meta.lastFetchedAt, meta.errorCount + 1⟩⟩
    else
      let r := processEntries store entries
      ⟨r.1, r.2.1, r.2.2, ⟨some now, 0⟩⟩

/-- One registered feed with its environment for a run. -/
structure FeedRec where
  url : String
  name : String
  enabled : Bool
  outcome : FetchOutcome
  prefsFail : Bool
  meta : FeedMeta
deriving DecidableEq

/-- The sequential loop of `fetch_all_enabled_feeds` (source lines 198-200),
threading the article store and summing per-feed counts. -/
def fetchFeedsLoop (now : Nat) : List FeedRec → List String → Nat × List String
  | [], store => (0, store)
  | f :: fs, store =>
    let r := fetch_feed f.outcome f.prefsFail store f.meta now
    let rest := fetchFeedsLoop now fs r.store
    (r.newCount + rest.1, rest.2)

/-- `RSSFeeder.fetch_all_enabled_feeds` (source lines 183-207): load the
enabled feeds with `to_list(length=100)` — at most the first 100 — and run
`fetch_feed` over each sequentially.  `listFail` models an exception from
the registry query, caught by the outer handler (returns 0). -/
def fetch_all_enabled_feeds (feeds : List FeedRec) (listFail : Bool)
    (store : List String) (now : Nat) : Nat × List String :=
  if listFail then (0, store)
  else fetchFeedsLoop now ((feeds.filter (·.enabled)).take 100) store

/-! ### Retention sweep (`scheduler.py` lines 24-46) -/

/-- One stored article as seen by the retention sweep. -/
structure StoredItem where
  isStarred : Bool
  createdAt : Int
deriving DecidableEq

/-- `prefs.get("prune_after_days", 30) if prefs else 30` (source line 32):
the outer `Option` is the presence of a preferences document, the inner one
the presence of the field. -/
def pruneDays (prefs : Option (Option Nat)) : Nat :=
  match prefs with
  | none => 30
  | some d => d.getD 30

/-- The `delete_many` query of the sweep (source lines 36-39):
`is_starred ≠ true` and `created_at < cutoff`. -/
def sweepMatches (cutoff : Int) (it : StoredItem) : Bool :=
  (it.isStarred != true) && decide (it.createdAt < cutoff)

/-- `cleanup_old_articles` (source lines 24-46), with time in seconds
(`timedelta(days=n)` = `n * 86400` seconds): returns the surviving items and
the deleted count.  Cutoff is now minus the retention window. -/
def cleanup_old_articles (prefs : Option (Option Nat)) (now : Int)
    (items : List StoredItem) : List StoredItem × Nat :=
  let cutoff := now - (pruneDays prefs : Int) * 86400
  (items.filter (fun it => !sweepMatches cutoff it),
   (items.filter (sweepMatches cutoff)).length)

/-! ### Helper lemmas -/

lemma scoreFromTags_of_ge (e : Bool) (q : List Char) (n : Nat) (h : 3 ≤ n) :
    scoreFromTags e n q = scoreFromTags e 3 q := by
  simp [scoreFromTags, show n ≠ 0 from by omega, show n ≠ 1 from by omega,
    show n ≠ 2 from by omega]

lemma specScoreTable_of_ge (e : Bool) (q : List Char) (n : Nat) (h : 3 ≤ n) :
    specScoreTable e n q = specScoreTable e 3 q := by
  simp [specScoreTable, show n ≠ 0 from by omega, show n ≠ 1 from by omega,
    show n ≠ 2 from by omega]

lemma processEntry_count (store : List String) (e : FeedEntry) :
    (processEntry store e).1 = (processEntry store e).2.2.length := by
  simp only [processEntry]
  split_ifs <;> simp

lemma processEntries_count (es : List FeedEntry) :
    ∀ store, (processEntries store es).1 = (processEntries store es).2.2.length := by
  induction es with
  | nil => intro store; rfl
  | cons e es ih =>
    intro store
    simp [processEntries, List.length_append, processEntry_count, ih]

/-! ### Claim theorems -/

/-- Claim C1: the relevance score computed by `score_relevance` is a pure,
deterministic function of (excluded flag, tag count, quality) matching the
section 4.2 table exactly: excluded gives 0 everywhere; otherwise 1/2/3 for
0 tags, 4/5/6 for 1 tag, 6/7/8 for 2 tags and 8/9/10 for 3 or more tags,
across low/medium/high quality. -/
theorem c1_score_matches_table (e : Bool) (n : Nat) (q : List Char)
    (h : q = "low".data ∨ q = "medium".data ∨ q = "high".data) :
    scoreFromTags e n q = specScoreTable e n q := by
  rcases h with rfl | rfl | rfl <;> cases e <;> rcases n with _ | _ | _ | m <;>
    first
      | decide
      | (rw [scoreFromTags_of_ge _ _ _ (by omega), specScoreTable_of_ge _ _ _ (by omega)]
         decide)

theorem c1_score_matches_table_witness :
    (("low".data = "low".data ∨ "low".data = "medium".data ∨ "low".data = "high".data) ∧
      scoreFromTags false 1 "low".data = specScoreTable false 1 "low".data) :=
  ⟨Or.inl rfl, c1_score_matches_table false 1 "low".data (Or.inl rfl)⟩

/-- Claim C2 (amended): when the raw-content fetch fails (timeout, HTTP
error status, or transport error), `fetch_feed` returns 0 new items without
raising and leaves the store and the feed's metadata — both the
consecutive-error counter and the last-fetch timestamp — unchanged.  (The
claim's asserted error-counter increment does not happen: the failure is
converted to `None` inside `_fetch_feed_content` and the early `return 0`
never reaches the exception handler that increments the counter.) -/
theorem c2_fetch_failure_soft (o : FetchOutcome) (pf : Bool) (store : List String)
    (meta : FeedMeta) (now : Nat)
    (h : o = .timeout ∨ o = .httpError ∨ o = .transportError) :
    fetch_feed o pf store meta now = ⟨0, store, [], meta⟩ := by
  rcases h with rfl | rfl | rfl <;> rfl

theorem c2_fetch_failure_soft_witness :
    ((FetchOutcome.timeout = FetchOutcome.timeout ∨ FetchOutcome.timeout = FetchOutcome.httpError ∨
        FetchOutcome.timeout = FetchOutcome.transportError) ∧
      fetch_feed FetchOutcome.timeout false ["u"] ⟨some 3, 2⟩ 9 = ⟨0, ["u"], [], ⟨some 3, 2⟩⟩) :=
  ⟨Or.inl rfl, c2_fetch_failure_soft _ _ _ _ _ (Or.inl rfl)⟩

/-- Claim C2 counterexample: on a timeout with prior error count 0, the
error counter after the run is still 0, not 0 + 1 as the claim states. -/
theorem c2_counterexample :
    (fetch_feed FetchOutcome.timeout false ["u"] ⟨some 3, 0⟩ 9).newCount = 0 ∧
    (fetch_feed FetchOutcome.timeout false ["u"] ⟨some 3, 0⟩ 9).meta.lastFetchedAt = some 3 ∧
    (fetch_feed FetchOutcome.timeout false ["u"] ⟨some 3, 0⟩ 9).meta.errorCount = 0 ∧
    ¬ (fetch_feed FetchOutcome.timeout false ["u"] ⟨some 3, 0⟩ 9).meta.errorCount = 0 + 1 := by
  refine ⟨rfl, rfl, rfl, by decide⟩

/-- Claim C5: on backend connection failure or timeout, `summarize_article`
returns exactly the offline sentinel and `score_relevance` returns score 5
with an empty tag list; on any other unexpected error, `summarize_article`
returns the failure sentinel and `score_relevance` again returns (5, []).
As total functions of the backend outcome, neither operation can raise. -/
theorem c5_error_sentinels :
    summarize_article .connectionError = "Summary unavailable - AI service temporarily offline." ∧
    summarize_article .timeoutError = "Summary unavailable - AI service temporarily offline." ∧
    summarize_article .otherError = "Summary generation failed." ∧
    ∀ interests : List String,
      score_relevance .connectionError interests = (5, []) ∧
      score_relevance .timeoutError interests = (5, []) ∧
      score_relevance .otherError interests = (5, []) :=
  ⟨rfl, rfl, rfl, fun _ => ⟨rfl, rfl, rfl⟩⟩

/-- Claim C6: a duplicate-key race during the guarded insert is a benign
skip.  The count `fetch_feed` returns equals the number of keys this run
actually inserted, and an entry that hits the duplicate-key race contributes
no count and no insert (and, being a branch of a total function, raises
nothing). -/
theorem c6_duplicate_key_skip :
    (∀ (entries : List FeedEntry) (store : List String) (meta : FeedMeta) (now : Nat),
      (fetch_feed (.ok entries) false store meta now).newCount =
        (fetch_feed (.ok entries) false store meta now).inserted.length) ∧
    ∀ (store : List String) (e : FeedEntry), e.race = true →
      (processEntry store e).1 = 0 ∧ (processEntry store e).2.2 = [] := by
  constructor
  · intro entries store meta now
    exact processEntries_count entries store
  · intro store e h
    simp only [processEntry]
    split_ifs <;> simp_all

theorem c6_duplicate_key_skip_witness :
    ((fetch_feed (.ok [⟨some "a", false, true⟩]) false [] ⟨none, 0⟩ 1).newCount =
        (fetch_feed (.ok [⟨some "a", false, true⟩]) false [] ⟨none, 0⟩ 1).inserted.length) ∧
    (processEntry [] ⟨some "a", false, true⟩).1 = 0 ∧
    (processEntry [] ⟨some "a", false, true⟩).2.2 = [] :=
  ⟨c6_duplicate_key_skip.1 _ _ _ _,
   (c6_duplicate_key_skip.2 [] ⟨some "a", false, true⟩ rfl).1,
   (c6_duplicate_key_skip.2 [] ⟨some "a", false, true⟩ rfl).2⟩

/-- Claim C7 counterexample: an entry with a missing link is not skipped —
with an empty store it is processed, inserted under the empty-string url
and counted (newCount 1, store and inserted list contain `""`). -/
theorem c7_counterexample :
    (fetch_feed (.ok [⟨none, false, false⟩]) false [] ⟨none, 0⟩ 7).newCount = 1 ∧
    (fetch_feed (.ok [⟨none, false, false⟩]) false [] ⟨none, 0⟩ 7).inserted = [""] ∧
    (fetch_feed (.ok [⟨none, false, false⟩]) false [] ⟨none, 0⟩ 7).store = [""] :=
  ⟨rfl, rfl, rfl⟩

/-- Claim C7 (amended): an entry with a missing link is given the empty
string as identity key and treated like any other entry: it is skipped by
the pre-check only when an item with url `""` is already stored; otherwise
(no processing error, no race) it is enriched, inserted under `""` and
counted.  The rest of the feed run is unaffected either way. -/
theorem c7_missing_link (store : List String) (e : FeedEntry) (h : e.link = none) :
    (("" : String) ∈ store → processEntry store e = (0, store, [])) ∧
    (("" : String) ∉ store → e.procError = false → e.race = false →
      processEntry store e = (1, store ++ [""], [""])) := by
  have hu : entryUrl e = "" := by simp [entryUrl, h]
  constructor
  · intro hin
    simp [processEntry, hu, hin]
  · intro hnin hp hr
    simp [processEntry, hu, hnin, hp, hr]

theorem c7_missing_link_witness :
    processEntry [""] ⟨none, false, false⟩ = (0, [""], []) ∧
    processEntry [] ⟨none, false, false⟩ = (1, [] ++ [""], [""]) :=
  ⟨(c7_missing_link [""] ⟨none, false, false⟩ rfl).1 (by decide),
   (c7_missing_link [] ⟨none, false, false⟩ rfl).2 (by decide) rfl rfl⟩

/-- Claim C8: every `fetch_feed` run that completes normally after a
successful content fetch — whatever the entries, including runs inserting
zero new items — sets the feed's last-fetch timestamp to now and resets its
consecutive-error counter to 0. -/
theorem c8_success_resets_meta (entries : List FeedEntry) (store : List String)
    (meta : FeedMeta) (now : Nat) :
    (fetch_feed (.ok entries) false store meta now).meta = ⟨some now, 0⟩ := rfl

/-- Claim C9: with window = the stored retention preference (30 days when
the document or the field is absent) and cutoff = now − window, the sweep
deletes exactly the unstarred items created strictly before the cutoff and
keeps exactly the items that are starred or created at/after the cutoff. -/
theorem c9_retention_sweep (prefs : Option (Option Nat)) (now : Int)
    (items : List StoredItem) :
    (cleanup_old_articles prefs now items).1 =
      items.filter
        (fun it => it.isStarred || decide (now - (pruneDays prefs : Int) * 86400 ≤ it.createdAt)) ∧
    (cleanup_old_articles prefs now items).2 =
      (items.filter
        (fun it => !it.isStarred && decide (it.createdAt < now - (pruneDays prefs : Int) * 86400))).length ∧
    pruneDays none = 30 ∧ pruneDays (some none) = 30 ∧ ∀ d, pruneDays (some (some d)) = d := by
  refine ⟨?_, ?_, rfl, rfl, fun d => rfl⟩
  · unfold cleanup_old_articles
    apply List.filter_congr
    intro it _
    cases hit : it.isStarred <;>
      by_cases hc : it.createdAt < now - (pruneDays prefs : Int) * 86400 <;>
        simp [sweepMatches, hit, hc] <;> omega
  · unfold cleanup_old_articles
    apply congrArg List.length
    apply List.filter_congr
    intro it _
    cases hit : it.isStarred <;>
      by_cases hc : it.createdAt < now - (pruneDays prefs : Int) * 86400 <;>
        simp [sweepMatches, hit, hc]

/-- Claim C10: a single run of `fetch_all_enabled_feeds` ingests at most the
first 100 enabled feeds: once 100 enabled feeds are present, appending a
further feed to the registry changes neither the returned total nor the
resulting article store. -/
theorem c10_hundred_feed_cap (feeds : List FeedRec) (f : FeedRec) (store : List String)
    (now : Nat) (h : 100 ≤ (feeds.filter (·.enabled)).length) :
    fetch_all_enabled_feeds (feeds ++ [f]) false store now =
      fetch_all_enabled_feeds feeds false store now := by
  unfold fetch_all_enabled_feeds
  rw [List.filter_append, List.take_append_of_le_length h]

/-- A concrete enabled feed used to witness the 100-feed cap. -/
def capFeed : FeedRec := ⟨"u", "n", true, .timeout, false, ⟨none, 0⟩⟩

theorem c10_hundred_feed_cap_witness :
    100 ≤ ((List.replicate 100 capFeed).filter (·.enabled)).length ∧
    fetch_all_enabled_feeds (List.replicate 100 capFeed ++ [capFeed]) false [] 0 =
      fetch_all_enabled_feeds (List.replicate 100 capFeed) false [] 0 :=
  ⟨by decide, c10_hundred_feed_cap (List.replicate 100 capFeed) capFeed [] 0 (by decide)⟩

/-- Claim C3 counterexample: (a) the parser locates the tags line
case-sensitively, not case-insensitively — a lowercase `tags:` line is
ignored and yields no tags; (b) the returned tag list can contain
duplicates — the same vocabulary label in two capitalizations is kept
twice. -/
theorem c3_counterexample :
    (parseTopics [['A', 'I']] "tags: [AI]\nQuality: high".data).tags = [] ∧
    (parseTopics [['A', 'I']] "Tags: [AI, ai]\nQuality: high".data).tags =
      [['A', 'I'], ['A', 'I']] ∧
    ¬ (parseTopics [['A', 'I']] "Tags: [AI, ai]\nQuality: high".data).tags.Nodup := by
  refine ⟨rfl, rfl, ?_⟩
  decide

/-- Claim C4 counterexample: a colon within the first 50 characters does not
by itself trigger preamble removal — `"Note: One. Two."` has a colon at
index 4 yet is returned unchanged, not with the text up to the colon
removed. -/
theorem c4_counterexample :
    ':' ∈ (pyStrip "Note: One. Two.".data).take 50 ∧
    summarizePost "Note: One. Two.".data = "Note: One. Two.".data ∧
    summarizePost "Note: One. Two.".data ≠ pyStrip (afterFirst ':' "Note: One. Two.".data) := by
  refine ⟨by decide, rfl, by decide⟩

/-! ### Lemmas about the string primitives -/

lemma splitCh_ne_nil (c : Char) (l : List Char) : splitCh c l ≠ [] := by
  induction l with
  | nil => simp [splitCh]
  | cons x xs ih =>
    simp only [splitCh]
    cases h : splitCh c xs with
    | nil => simp
    | cons y ys => by_cases hx : x = c <;> simp [hx]

lemma splitCh_exists (c : Char) (l : List Char) : ∃ y ys, splitCh c l = y :: ys := by
  cases h : splitCh c l with
  | nil => exact absurd h (splitCh_ne_nil c l)
  | cons y ys => exact ⟨y, ys, rfl⟩

lemma splitCh_cons_of_ne {a c : Char} (ha : a ≠ c) (l : List Char) {y : List Char}
    {ys : List (List Char)} (h : splitCh c l = y :: ys) :
    splitCh c (a :: l) = (a :: y) :: ys := by
  simp [splitCh, h, ha]

lemma splitCh_append {c : Char} {l : List Char} (hl : c ∉ l) (r : List Char) :
    splitCh c (l ++ c :: r) = l :: splitCh c r := by
  induction l with
  | nil =>
    obtain ⟨y, ys, h⟩ := splitCh_exists c r
    simp [splitCh, h]
  | cons a l ih =>
    have ha : a ≠ c := fun h => hl (h ▸ List.mem_cons_self a l)
    have hl2 : c ∉ l := fun h => hl (List.mem_cons_of_mem a h)
    obtain ⟨y, ys, h⟩ := splitCh_exists c (l ++ c :: r)
    rw [List.cons_append, splitCh_cons_of_ne ha _ h, ih hl2] at *
    cases h
    rfl

lemma not_mem_of_mem_splitCh {c : Char} {l x : List Char} (hx : x ∈ splitCh c l) :
    c ∉ x := by
  induction l generalizing x with
  | nil =>
    simp [splitCh] at hx
    simp [hx]
  | cons a l ih =>
    obtain ⟨y, ys, h⟩ := splitCh_exists c l
    by_cases hac : a = c
    · subst hac
      simp [splitCh, h] at hx
      rcases hx with rfl | hx
      · simp
      · exact ih (h ▸ List.mem_cons.2 hx)
    · rw [splitCh_cons_of_ne hac _ h] at hx
      rcases List.mem_cons.1 hx with rfl | hx
      · intro hmem
        rcases List.mem_cons.1 hmem with rfl | hmem
        · exact hac rfl
        · exact ih (h ▸ List.mem_cons_self y ys) hmem
      · exact ih (h ▸ List.mem_cons_of_mem y hx)

lemma pyStripP_eq_rdropWhile (p : Char → Bool) (l : List Char) :
    pyStripP p l = List.rdropWhile p (l.dropWhile p) := rfl

lemma mem_of_mem_pyStripP {p : Char → Bool} {l : List Char} {a : Char}
    (h : a ∈ pyStripP p l) : a ∈ l := by
  rw [pyStripP_eq_rdropWhile] at h
  exact (List.dropWhile_sublist p).mem ((List.rdropWhile_prefix p _).sublist.mem h)

lemma dropWhile_eq_self_of_isPrefix {p : Char → Bool} {x y : List Char}
    (hx : x.dropWhile p = x) (hyx : y <+: x) : y.dropWhile p = y := by
  obtain ⟨t, rfl⟩ := hyx
  cases y with
  | nil => rfl
  | cons a ys =>
    by_cases hpa : p a
    · rw [List.cons_append, List.dropWhile_cons_of_pos hpa] at hx
      have hlen := congrArg List.length hx
      have hle : (List.dropWhile p (ys ++ t)).length ≤ (ys ++ t).length :=
        (List.dropWhile_sublist p).length_le
      simp only [List.length_cons, List.length_append] at hlen hle
      omega
    · exact List.dropWhile_cons_of_neg hpa

lemma pyStripP_idem (p : Char → Bool) (l : List Char) :
    pyStripP p (pyStripP p l) = pyStripP p l := by
  rw [pyStripP_eq_rdropWhile, pyStripP_eq_rdropWhile]
  have h1 : (List.rdropWhile p (l.dropWhile p)).dropWhile p =
      List.rdropWhile p (l.dropWhile p) :=
    dropWhile_eq_self_of_isPrefix (List.dropWhile_idempotent p l)
      (List.rdropWhile_prefix p (l.dropWhile p))
  rw [h1, List.rdropWhile_idempotent]

lemma pyStrip_idem (l : List Char) : pyStrip (pyStrip l) = pyStrip l :=
  pyStripP_idem pyIsSpace l

lemma pyStrip_cons_space {a : Char} (ha : pyIsSpace a = true) (l : List Char) :
    pyStrip (a :: l) = pyStrip l := by
  unfold pyStrip pyStripP
  rw [List.dropWhile_cons_of_pos ha]

lemma pySentences_cons_space {a : Char} (ha : pyIsSpace a = true) (had : a ≠ '.')
    (l : List Char) : pySentences (a :: l) = pySentences l := by
  obtain ⟨y, ys, h⟩ := splitCh_exists '.' l
  unfold pySentences
  rw [splitCh_cons_of_ne had _ h, h, List.map_cons, List.map_cons,
    pyStrip_cons_space ha]

lemma pySentences_append_head {x : List Char} (hx : '.' ∉ x) (hfix : pyStrip x = x)
    (hne : x ≠ []) (r : List Char) :
    pySentences (x ++ '.' :: r) = x :: pySentences r := by
  unfold pySentences
  rw [splitCh_append hx, List.map_cons, hfix, List.filter_cons]
  simp [hne]

lemma sentenceCount_join (ss : List (List Char))
    (h : ∀ x ∈ ss, '.' ∉ x ∧ pyStrip x = x ∧ x ≠ []) :
    sentenceCount (joinSep ['.', ' '] ss ++ ['.']) = ss.length := by
  induction ss with
  | nil => decide
  | cons x ss ih =>
    obtain ⟨hx, hfix, hne⟩ := h x (List.mem_cons_self x ss)
    cases ss with
    | nil =>
      show sentenceCount (x ++ '.' :: []) = 1
      rw [sentenceCount, pySentences_append_head hx hfix hne]
      rfl
    | cons y ss2 =>
      have hrest := ih (fun z hz => h z (List.mem_cons_of_mem x hz))
      have hshape : joinSep ['.', ' '] (x :: y :: ss2) ++ ['.'] =
          x ++ '.' :: (' ' :: (joinSep ['.', ' '] (y :: ss2) ++ ['.'])) := by
        show (x ++ ['.', ' '] ++ joinSep ['.', ' '] (y :: ss2)) ++ ['.'] = _
        simp
      rw [hshape, sentenceCount, pySentences_append_head hx hfix hne,
        List.length_cons, ← sentenceCount]
      rw [show sentenceCount (' ' :: (joinSep ['.', ' '] (y :: ss2) ++ ['.'])) =
          sentenceCount (joinSep ['.', ' '] (y :: ss2) ++ ['.']) from
        congrArg List.length (pySentences_cons_space (by decide) (by decide) _)]
      rw [hrest]
      rfl

lemma truncate4_le (s : List Char) : sentenceCount (truncate4 s) ≤ 4 := by
  by_cases h : 4 < (pySentences s).length
  · rw [truncate4, if_pos h]
    have hprop : ∀ x ∈ (pySentences s).take 4, '.' ∉ x ∧ pyStrip x = x ∧ x ≠ [] := by
      intro x hxt
      have hx2 : x ∈ pySentences s := List.mem_of_mem_take hxt
      have hfil := List.mem_filter.1 hx2
      obtain ⟨u, hu, rfl⟩ := List.mem_map.1 hfil.1
      refine ⟨fun hmem => not_mem_of_mem_splitCh hu (mem_of_mem_pyStripP hmem),
        pyStrip_idem u, ?_⟩
      intro hnil
      rw [hnil] at hfil
      simp at hfil
    rw [sentenceCount_join _ hprop, List.length_take]
    omega
  · rw [truncate4, if_neg h]
    rw [sentenceCount] at *
    omega

/-- Claim C4 (amended): the synopsis post-processing always returns at most
4 sentences (by the source's own counting: non-empty period-separated
segments), but removes the leading text up to the first colon only when the
stripped response starts, case-insensitively, with one of the five known
preamble phrases (and a colon occurs within the first 50 characters) — a
colon within the first 50 characters does not by itself trigger removal:
when no known phrase matches, the response goes to truncation unchanged. -/
theorem c4_postprocess (raw : List Char) :
    sentenceCount (summarizePost raw) ≤ 4 ∧
    ((∀ p ∈ unwantedPres, ¬ p.isPrefixOf (pyLower (pyStrip raw)) = true) →
      summarizePost raw = truncate4 (pyStrip raw)) := by
  constructor
  · exact truncate4_le _
  · intro h
    have hnone : stripPreamble (pyStrip raw) = pyStrip raw := by
      unfold stripPreamble
      rw [List.find?_eq_none.2 h]
    rw [summarizePost, hnone]

theorem c4_postprocess_witness :
    sentenceCount (summarizePost "One. Two.".data) ≤ 4 ∧
    summarizePost "One. Two.".data = truncate4 (pyStrip "One. Two.".data) :=
  ⟨(c4_postprocess "One. Two.".data).1, (c4_postprocess "One. Two.".data).2 (by decide)⟩

/-! ### Lemmas about the topic parser -/

lemma interestLookup_mem {ints : List (List Char)} {k v : List Char}
    (h : interestLookup ints k = some v) : v ∈ ints := by
  unfold interestLookup at h
  exact List.mem_reverse.1 (List.mem_of_find?_eq_some h)

lemma parseTagsValue_length (ints : List (List Char)) (ts : List Char) :
    (parseTagsValue ints ts).length ≤ 3 := by
  unfold parseTagsValue
  rw [List.length_take]
  omega

lemma parseTagsValue_mem {ints : List (List Char)} {ts : List Char} {t : List Char}
    (h : t ∈ parseTagsValue ints ts) : t ∈ ints := by
  unfold parseTagsValue at h
  obtain ⟨u, _, hu⟩ := List.mem_filterMap.1 (List.mem_of_mem_take h)
  exact interestLookup_mem hu

lemma lineStep_tags_bound {ints : List (List Char)} {st : TagState}
    (hl : st.tags.length ≤ 3) (hm : ∀ t ∈ st.tags, t ∈ ints) (line : List Char) :
    (lineStep ints st line).tags.length ≤ 3 ∧
      ∀ t ∈ (lineStep ints st line).tags, t ∈ ints := by
  unfold lineStep applyTags applyQuality
  split_ifs <;> refine ⟨?_, ?_⟩ <;>
    first
      | exact parseTagsValue_length _ _
      | exact fun t ht => parseTagsValue_mem ht
      | exact hl
      | exact hm
      | simp

lemma foldl_tags_bound (ints : List (List Char)) (lines : List (List Char)) :
    ∀ st : TagState, st.tags.length ≤ 3 → (∀ t ∈ st.tags, t ∈ ints) →
      (lines.foldl (lineStep ints) st).tags.length ≤ 3 ∧
        ∀ t ∈ (lines.foldl (lineStep ints) st).tags, t ∈ ints := by
  induction lines with
  | nil => exact fun st hl hm => ⟨hl, hm⟩
  | cons a lines ih =>
    intro st hl hm
    obtain ⟨hl2, hm2⟩ := lineStep_tags_bound hl hm a
    exact ih _ hl2 hm2

lemma qualKw_not_tagsKw {l : List Char} (h : qualKw.isPrefixOf l = true) :
    tagsKw.isPrefixOf l = false := by
  cases l with
  | nil => simp [qualKw, List.isPrefixOf] at h
  | cons a as =>
    simp only [qualKw, List.isPrefixOf, Bool.and_eq_true, beq_iff_eq] at h
    obtain ⟨h1, -⟩ := h
    subst h1
    simp [tagsKw, List.isPrefixOf]

lemma applyTags_applyQuality_comm (ints : List (List Char)) (st : TagState)
    (la lb : List Char) :
    applyQuality (applyTags ints st la) lb = applyTags ints (applyQuality st lb) la := by
  unfold applyTags applyQuality
  split_ifs <;> rfl

lemma lineStep_comm {ints : List (List Char)} {a b : List Char}
    (ha : tagsKw.isPrefixOf (pyStrip a) = true)
    (hb : qualKw.isPrefixOf (pyStrip b) = true) (st : TagState) :
    lineStep ints (lineStep ints st a) b = lineStep ints (lineStep ints st b) a := by
  have hb2 : tagsKw.isPrefixOf (pyStrip b) = false := qualKw_not_tagsKw hb
  have ea : ∀ s : TagState, lineStep ints s a = applyTags ints s (pyStrip a) := by
    intro s
    rw [lineStep, if_pos ha]
  have eb : ∀ s : TagState, lineStep ints s b = applyQuality s (pyStrip b) := by
    intro s
    rw [lineStep, if_neg (by simp [hb2]), if_pos hb]
  rw [ea, eb, eb, ea]
  exact applyTags_applyQuality_comm ints st (pyStrip a) (pyStrip b)

lemma lineStep_excluded_mono {ints : List (List Char)} {st : TagState}
    (h : st.excluded = true) (line : List Char) :
    (lineStep ints st line).excluded = true := by
  unfold lineStep applyTags applyQuality
  split_ifs <;> simp [h]

lemma lineStep_tags_of_no_tagsKw {ints : List (List Char)} {st : TagState}
    {line : List Char} (h : tagsKw.isPrefixOf (pyStrip line) = false) :
    (lineStep ints st line).tags = st.tags := by
  unfold lineStep applyQuality
  rw [if_neg (by simp [h])]
  split_ifs <;> rfl

lemma foldl_excluded_tags (ints : List (List Char)) (lines : List (List Char)) :
    ∀ st : TagState, st.excluded = true →
      (∀ l ∈ lines, tagsKw.isPrefixOf (pyStrip l) = false) →
      (lines.foldl (lineStep ints) st).excluded = true ∧
        (lines.foldl (lineStep ints) st).tags = st.tags := by
  induction lines with
  | nil => exact fun st hex _ => ⟨hex, rfl⟩
  | cons a lines ih =>
    intro st hex hna
    have hstep : (lineStep ints st a).tags = st.tags :=
      lineStep_tags_of_no_tagsKw (hna a (List.mem_cons_self a lines))
    obtain ⟨h1, h2⟩ := ih (lineStep ints st a) (lineStep_excluded_mono hex a)
      (fun l hl => hna l (List.mem_cons_of_mem a hl))
    exact ⟨h1, h2.trans hstep⟩

/-- Claim C3 (amended): the topic parser locates `Tags:` and `Quality:`
lines by an exact (case-sensitive) literal leading match, independently of
their order — swapping an adjacent tags line and quality line anywhere in
the line list leaves the parse state unchanged.  The returned tag list
contains only labels from the configured interest vocabulary (in the
vocabulary's capitalization) and has at most 3 elements, but need not be
duplicate-free.  When a tags line's value is the literal token EXCLUDED and
no later line is a tags line, the excluded flag is set and the tag list is
empty. -/
theorem c3_parser_behavior :
    (∀ (ints : List (List Char)) (text : List Char),
      (parseTopics ints text).tags.length ≤ 3 ∧
        ∀ t ∈ (parseTopics ints text).tags, t ∈ ints) ∧
    (∀ (ints : List (List Char)) (st : TagState) (l1 l2 : List (List Char))
        (a b : List Char),
      tagsKw.isPrefixOf (pyStrip a) = true → qualKw.isPrefixOf (pyStrip b) = true →
      (l1 ++ a :: b :: l2).foldl (lineStep ints) st =
        (l1 ++ b :: a :: l2).foldl (lineStep ints) st) ∧
    (∀ (ints : List (List Char)) (l1 l2 : List (List Char)) (a : List Char),
      tagsKw.isPrefixOf (pyStrip a) = true →
      pyUpper (pyStrip (afterFirst ':' (pyStrip a))) = "EXCLUDED".data →
      (∀ l ∈ l2, tagsKw.isPrefixOf (pyStrip l) = false) →
      ((l1 ++ a :: l2).foldl (lineStep ints) initTagState).excluded = true ∧
        ((l1 ++ a :: l2).foldl (lineStep ints) initTagState).tags = []) := by
  refine ⟨?_, ?_, ?_⟩
  · intro ints text
    exact foldl_tags_bound ints (splitCh '\n' text) initTagState (by simp [initTagState])
      (by simp [initTagState])
  · intro ints st l1 l2 a b ha hb
    rw [List.foldl_append, List.foldl_append, List.foldl_cons, List.foldl_cons,
      List.foldl_cons, List.foldl_cons, lineStep_comm ha hb]
  · intro ints l1 l2 a ha hex hl2
    rw [List.foldl_append, List.foldl_cons]
    have hstep : (lineStep ints (l1.foldl (lineStep ints) initTagState) a) =
        { tags := [], quality := (l1.foldl (lineStep ints) initTagState).quality,
          excluded := true } := by
      rw [lineStep, if_pos ha, applyTags, if_pos hex]
    rw [hstep]
    exact foldl_excluded_tags ints l2 _ rfl hl2

theorem c3_parser_behavior_witness :
    ((parseTopics [['A', 'I']] "Tags: [AI]".data).tags.length ≤ 3 ∧
      ∀ t ∈ (parseTopics [['A', 'I']] "Tags: [AI]".data).tags, t ∈ [['A', 'I']]) ∧
    (["x".data] ++ "Tags: [AI]".data :: "Quality: high".data :: []).foldl
        (lineStep [['A', 'I']]) initTagState =
      (["x".data] ++ "Quality: high".data :: "Tags: [AI]".data :: []).foldl
        (lineStep [['A', 'I']]) initTagState ∧
    (([] ++ "Tags: EXCLUDED".data :: ["y".data]).foldl
        (lineStep [['A', 'I']]) initTagState).excluded = true ∧
    (([] ++ "Tags: EXCLUDED".data :: ["y".data]).foldl
        (lineStep [['A', 'I']]) initTagState).tags = [] :=
  ⟨c3_parser_behavior.1 [['A', 'I']] "Tags: [AI]".data,
   c3_parser_behavior.2.1 [['A', 'I']] initTagState ["x".data] []
     "Tags: [AI]".data "Quality: high".data (by decide) (by decide),
   (c3_parser_behavior.2.2 [['A', 'I']] [] ["y".data] "Tags: EXCLUDED".data
     (by decide) (by decide) (by decide)).1,
   (c3_parser_behavior.2.2 [['A', 'I']] [] ["y".data] "Tags: EXCLUDED".data
     (by decide) (by decide) (by decide)).2⟩
